import Mathlib

set_option linter.unusedVariables false

/-!
Verification development for the lazy hierarchical drive cache of the
backend package (the second, newer classes.js variant, whose Manager and
FolderTree classes the specification describes). The JavaScript objects are
embedded shallowly: FolderTree objects live in a flat heap indexed by
creation order, the non-owning parent pointer and the branch list hold heap
indices, and every remote interaction is counted in a call counter so that
the quota claims of the specification can be stated. Asynchronous methods
are collapsed to their settled outcomes; the one readiness poll loop is
modeled explicitly as an operation that never settles when the flag it
polls cannot change.
-/

/-- Substring test over character lists, first argument the needle checked
at the head of the second argument. -/
def leadsWith : List Char → List Char → Bool
  | [], _ => true
  | _ :: _, [] => false
  | a :: as, b :: bs => a == b && leadsWith as bs

/-- Substring occurrence over character lists, needle first. -/
def hasSub (needle : List Char) : List Char → Bool
  | [] => leadsWith needle []
  | c :: rest => leadsWith needle (c :: rest) || hasSub needle rest

/-- Model of the JavaScript String includes method used by the source for
mime type tests and by the drive name query. -/
def strIncludes (hay needle : String) : Bool := hasSub needle.data hay.data

/-- Model of the JavaScript toUpperCase call at the top of addBranch,
written over the character list so that it evaluates by reduction. -/
def jsToUpper (s : String) : String := String.mk (s.data.map Char.toUpper)

/-- A raw remote file record as the drive API returns it. An empty parents
list models a record that has no parents property, which is how drives and
the root present themselves. -/
structure GFile where
  id : String
  name : String
  mimeType : Option String
  parents : List String
  trashed : Bool
deriving DecidableEq, Repr

/-- The minimized metadata kept by the cache, as produced by the two parse
functions of the source. -/
structure Info where
  type : String
  id : String
  name : String
  parents : List String
  parent : Option String
  mimeType : Option String
deriving DecidableEq, Repr

/-- Source parseFolderInfo: type FOLDER plus id and name only. -/
def parseFolderInfo (f : GFile) : Info :=
  { type := "FOLDER", id := f.id, name := f.name, parents := [], parent := none,
    mimeType := none }

/-- Source parseFileInfo: type FILE plus id, name, the parents, the first
parent and the mime type. -/
def parseFileInfo (f : GFile) : Info :=
  { type := "FILE", id := f.id, name := f.name, parents := f.parents,
    parent := f.parents.head?, mimeType := f.mimeType }

/-- The remote store reachable through the API client: its records, the id
the next create call hands out, and the folder ids whose listing call
currently fails at the transport. -/
structure Remote where
  files : List GFile
  freshId : String
  failList : List String
deriving DecidableEq, Repr

/-- Model of the files list call issued by FolderTree.init: every record
whose parents contain the folder id and that is not trashed. A transport
failure is answered by the error callback of the source, which leaves the
awaited response undefined; that case is none here. -/
def listChildren (r : Remote) (fid : String) : Option (List GFile) :=
  if r.failList.contains fid then none
  else some (r.files.filter (fun f => f.parents.contains fid && !f.trashed))

/-- Model of the files get call: the record carrying the requested id. -/
def filesGet (r : Remote) (fid : String) : Option GFile :=
  r.files.find? (fun f => f.id == fid)

/-- Model of the name query issued by Manager.search: name contains the
search string and the record is not trashed. -/
def searchQuery (r : Remote) (name : String) : List GFile :=
  r.files.filter (fun f => strIncludes f.name name && !f.trashed)

/-- Model of the files create call: the remote answers with a fresh record
parented under the requested folder. -/
def filesCreate (r : Remote) (name mime parentId : String) : GFile :=
  { id := r.freshId, name := name, mimeType := some mime, parents := [parentId],
    trashed := false }

/-- The distinguishable ways an async method of the source can settle. -/
inductive JsErr
  | remoteUnavailable
  | branchOnFile
  | badBranchType
  | typeErr
deriving DecidableEq, Repr

/-!
The remoteUnavailable constructor stands for the rejection init suffers
when the listing call failed and the undefined response is read;
branchOnFile and badBranchType stand for the two strings addBranch throws;
typeErr stands for any other TypeError raised by reading a property of an
undefined value.
-/

/-- Settled outcome of an async method: a value, a rejection, or an await
that never completes (the readiness poll loop in a state where nothing can
flip the flag). -/
inductive Outcome (α : Type)
  | ok (a : α)
  | err (e : JsErr)
  | hang
deriving DecidableEq, Repr

/-- One FolderTree object. Branches hold heap indices of the owned child
trees, parent is the non-owning back reference, ready is the readiness flag
that init sets. The root triple and the instance field of the source carry
no state of their own and are omitted; in particular the comparison of the
instance field with a string argument in the lookup methods can never
succeed and is dropped with it. -/
structure Node where
  type : String
  info : Info
  parent : Option Nat
  branches : List Nat
  childFolderInfo : List Info
  childFileInfo : List Info
  ready : Bool
deriving DecidableEq, Repr

/-- The heap of FolderTree objects plus a counter of remote calls issued so
far. -/
structure Sys where
  nodes : List Node
  calls : Nat
deriving DecidableEq, Repr

def Sys.addCalls (s : Sys) (n : Nat) : Sys := { s with calls := s.calls + n }

def Sys.setNode (s : Sys) (i : Nat) (nd : Node) : Sys :=
  { s with nodes := s.nodes.set i nd }

/-- The ids of the materialized branches of a node, the list the source
calls initializedIDs. -/
def branchIds (s : Sys) (nd : Node) : List String :=
  nd.branches.filterMap (fun j => (s.nodes[j]?).map (fun b => b.info.id))

/-- Splits listed records the way the loop in init does: a record with a
folder mime type is parsed as folder info, any other record with a mime
type as file info, and a record without one is skipped. -/
def splitItems : List GFile → List Info × List Info
  | [] => ([], [])
  | f :: rest =>
    let (fs, ls) := splitItems rest
    match f.mimeType with
    | some m =>
      if strIncludes m "folder" then (parseFolderInfo f :: fs, ls)
      else (fs, parseFileInfo f :: ls)
    | none => (fs, ls)

/-- FolderTree.init: one listing call for the node id; on success the
parsed children are appended to the two child info lists and ready is set;
on failure the rejected call leaves the node untouched, ready still false,
so the listing can be attempted again later. The method guards nothing: it
has no check of ready, so every invocation issues its own listing call. -/
def init (r : Remote) (i : Nat) (s : Sys) : Outcome Unit × Sys :=
  match s.nodes[i]? with
  | none => (.err .typeErr, s)
  | some nd =>
    let s1 := s.addCalls 1
    match listChildren r nd.info.id with
    | none => (.err .remoteUnavailable, s1)
    | some items =>
      (.ok (), s1.setNode i { nd with
        childFolderInfo := nd.childFolderInfo ++ (splitItems items).1,
        childFileInfo := nd.childFileInfo ++ (splitItems items).2,
        ready := true })

/-- The synchronous body of the FolderTree constructor: the node is
appended with ready true unless its type is FOLDER, in which case ready is
lowered just before init fires. -/
def mkTreeSync (t : String) (info : Info) (par : Option Nat) (s : Sys) : Nat × Sys :=
  let fresh : Node :=
    { type := t, info := info, parent := par, branches := [],
      childFolderInfo := [], childFileInfo := [], ready := !(t == "FOLDER") }
  (s.nodes.length, { s with nodes := s.nodes ++ [fresh] })

/-- The FolderTree constructor together with the discovery call it fires
for a FOLDER node. The async init is collapsed to its settled state; a
rejection of it is unobserved by the constructor. -/
def mkTree (r : Remote) (t : String) (info : Info) (par : Option Nat) (s : Sys) : Nat × Sys :=
  let made := mkTreeSync t info par s
  if t == "FOLDER" then (made.1, (init r made.1 made.2).2) else made

/-- FolderTree.addBranch: after upper casing the type, a non FILE parent
builds the child FolderTree, running its constructor and hence the
discovery call of a FOLDER child, then pushes it onto branches; a FILE
parent throws, and so does an unknown type. -/
def addBranch (r : Remote) (i : Nat) (t : String) (info : Info) (s : Sys) : Outcome Nat × Sys :=
  match s.nodes[i]? with
  | none => (.err .typeErr, s)
  | some nd =>
    let ty := jsToUpper t
    if nd.type != "FILE" && (ty == "FOLDER" || ty == "FILE") then
      let made := mkTree r ty info (some i) s
      match made.2.nodes[i]? with
      | none => (.err .typeErr, made.2)
      | some nd1 =>
        (.ok made.1, made.2.setNode i { nd1 with branches := nd1.branches ++ [made.1] })
    else if nd.type == "FILE" then (.err .branchOnFile, s)
    else (.err .badBranchType, s)

/-- genFile builds a Sheet exactly when the info carries a spreadsheet mime
type; the Sheet constructor immediately issues one sheet read call, while a
DefaultFile issues none. Only that call count matters to the cache. -/
def genFileIsSheet (info : Info) : Bool :=
  match info.mimeType with
  | some m => strIncludes m "spreadsheet"
  | none => false

/-- Remote calls fired by constructing the genFile instance for an info. -/
def genFileCalls (info : Info) : Nat := if genFileIsSheet info then 1 else 0

/-- FolderTree.initFolder: first the fixed interval poll loop awaits ready;
in this sequential model the flag cannot change while polling, so the call
hangs on a non ready node. Then the guard compares the argument, which may
be an id or a name, against the ids of the materialized branches, and a
surviving metadata match by id or name is materialized through addBranch.
No match resolves to undefined. -/
def initFolder (r : Remote) (i : Nat) (arg : String) (s : Sys) : Outcome (Option Nat) × Sys :=
  match s.nodes[i]? with
  | none => (.err .typeErr, s)
  | some nd =>
    if !nd.ready then (.hang, s)
    else
      if (branchIds s nd).contains arg then (.ok none, s)
      else
        match nd.childFolderInfo.find? (fun info => arg == info.id || arg == info.name) with
        | some info =>
          match addBranch r i "FOLDER" info s with
          | (.ok j, s1) => (.ok (some j), s1)
          | (.err e, s1) => (.err e, s1)
          | (.hang, s1) => (.hang, s1)
        | none => (.ok none, s)

/-- FolderTree.initFile: like initFolder but over childFileInfo and with no
readiness poll. The genFile instance for the match is constructed while the
arguments of addBranch are evaluated, so a sheet load call fires before the
type check of addBranch runs. -/
def initFile (r : Remote) (i : Nat) (arg : String) (s : Sys) : Outcome (Option Nat) × Sys :=
  match s.nodes[i]? with
  | none => (.err .typeErr, s)
  | some nd =>
    if (branchIds s nd).contains arg then (.ok none, s)
    else
      match nd.childFileInfo.find? (fun info => arg == info.id || arg == info.name) with
      | some info =>
        match addBranch r i "FILE" info (s.addCalls (genFileCalls info)) with
        | (.ok j, s1) => (.ok (some j), s1)
        | (.err e, s1) => (.err e, s1)
        | (.hang, s1) => (.hang, s1)
      | none => (.ok none, s)

/-- The shared loop of fillFolders and fillFiles: the ids of materialized
branches are computed once up front, then every metadata entry whose id is
not among them is materialized; a thrown addBranch aborts the loop. -/
def fillLoop (r : Remote) (i : Nat) (isFolder : Bool) (ids : List String) :
    List Info → Sys → Outcome Unit × Sys
  | [], s => (.ok (), s)
  | info :: rest, s =>
    if ids.contains info.id then fillLoop r i isFolder ids rest s
    else
      let s0 := if isFolder then s else s.addCalls (genFileCalls info)
      match addBranch r i (if isFolder then "FOLDER" else "FILE") info s0 with
      | (.ok _, s1) => fillLoop r i isFolder ids rest s1
      | (.err e, s1) => (.err e, s1)
      | (.hang, s1) => (.hang, s1)

/-- FolderTree.fillFolders. -/
def fillFolders (r : Remote) (i : Nat) (s : Sys) : Outcome Unit × Sys :=
  match s.nodes[i]? with
  | none => (.err .typeErr, s)
  | some nd => fillLoop r i true (branchIds s nd) nd.childFolderInfo s

/-- FolderTree.fillFiles. -/
def fillFiles (r : Remote) (i : Nat) (s : Sys) : Outcome Unit × Sys :=
  match s.nodes[i]? with
  | none => (.err .typeErr, s)
  | some nd => fillLoop r i false (branchIds s nd) nd.childFileInfo s

/-- FolderTree.searchAndInit: fetches the record by id and, when its first
parent is this node, appends the parsed info to childFileInfo and branches
it. The includes test of the source compares object identity against the
freshly parsed object and is therefore always false, so only the parent
check gates the add. -/
def searchAndInit (r : Remote) (i : Nat) (fid : String) (s : Sys) : Outcome (Option Nat) × Sys :=
  match s.nodes[i]? with
  | none => (.err .typeErr, s)
  | some nd =>
    let s1 := s.addCalls 1
    match filesGet r fid with
    | none => (.err .typeErr, s1)
    | some gf =>
      let parsed := parseFileInfo gf
      if parsed.parent == some nd.info.id then
        let s2 := (s1.setNode i { nd with childFileInfo := nd.childFileInfo ++ [parsed] }).addCalls
          (genFileCalls parsed)
        match addBranch r i "FILE" parsed s2 with
        | (.ok j, s3) => (.ok (some j), s3)
        | (.err e, s3) => (.err e, s3)
        | (.hang, s3) => (.hang, s3)
      else (.ok none, s1)

/-- FolderTree.createFolder: one create call, then the new FOLDER tree is
built and pushed directly onto branches. The source bypasses addBranch
here, so there is no type check on this node and no childFolderInfo entry
is recorded for the new child. -/
def createFolder (r : Remote) (i : Nat) (name : String) (s : Sys) : Outcome Nat × Sys :=
  match s.nodes[i]? with
  | none => (.err .typeErr, s)
  | some nd =>
    let s1 := s.addCalls 1
    let parsed := parseFolderInfo (filesCreate r name "application/vnd.google-apps.folder" nd.info.id)
    let made := mkTree r "FOLDER" parsed (some i) s1
    match made.2.nodes[i]? with
    | none => (.err .typeErr, made.2)
    | some nd2 =>
      (.ok made.1, made.2.setNode i { nd2 with branches := nd2.branches ++ [made.1] })

/-- FolderTree.createFile: one create call, the parsed record is appended
to childFileInfo, and only then does addBranch run its type check, so a
FILE parent is mutated before the throw. The name and mime type arguments
model the two required fields of the FILE INFO object. -/
def createFile (r : Remote) (i : Nat) (name mime : String) (s : Sys) : Outcome Nat × Sys :=
  match s.nodes[i]? with
  | none => (.err .typeErr, s)
  | some nd =>
    let s1 := s.addCalls 1
    let parsed := parseFileInfo (filesCreate r name mime nd.info.id)
    let s2 := (s1.setNode i { nd with childFileInfo := nd.childFileInfo ++ [parsed] }).addCalls
      (genFileCalls parsed)
    addBranch r i "FILE" parsed s2

/-- The value a getLocal call hands back to its synchronous caller: the
enclosing global that the dotdot branch reads through the bare identifier
parent, a tree, the promise of a materializing initFolder or initFile call
with whatever it settles to, or null. -/
inductive GetLocalRes
  | globalParent
  | node (i : Nat)
  | promisedFolder (o : Outcome (Option Nat))
  | promisedFile (o : Outcome (Option Nat))
  | nullRes
deriving DecidableEq, Repr

/-- JavaScript truthiness of a getLocal result: only null is falsy; in
particular a pending or rejected promise is truthy. -/
def truthy : GetLocalRes → Bool
  | .nullRes => false
  | _ => true

/-- A lookup result that came out of one of the two auto materializing
branches, the only branches of getLocal that can touch the heap or the
call counter. -/
def promisedRes (g : GetLocalRes) : Prop :=
  ∃ o, g = GetLocalRes.promisedFolder o ∨ g = GetLocalRes.promisedFile o

def typeOk (reqType : Option String) (t : String) : Bool :=
  match reqType with
  | none => true
  | some rt => t == rt

def infoMatch (arg : String) (i : Info) : Bool :=
  i.id == arg || i.name == arg

/-- FolderTree.getLocal: the dotdot escape, then self, then the
materialized branches, then folder metadata, then file metadata, the last
two auto materializing on a match. A match whose type fails the required
type test is skipped and the scan continues. The result of a materializing
branch is the promise itself, so a rejection or an undefined resolution
stays inside the returned value. -/
def getLocal (r : Remote) (i : Nat) (arg : String) (reqType : Option String) (s : Sys) :
    GetLocalRes × Sys :=
  match s.nodes[i]? with
  | none => (.nullRes, s)
  | some nd =>
    if arg == ".." then (.globalParent, s)
    else if infoMatch arg nd.info && typeOk reqType nd.type then (.node i, s)
    else
      match nd.branches.find? (fun j =>
          match s.nodes[j]? with
          | some b => infoMatch arg b.info && typeOk reqType b.type
          | none => false) with
      | some j => (.node j, s)
      | none =>
        match nd.childFolderInfo.find? (fun info => infoMatch arg info && typeOk reqType info.type) with
        | some info =>
          let p := initFolder r i info.id s
          (.promisedFolder p.1, p.2)
        | none =>
          match nd.childFileInfo.find? (fun info => infoMatch arg info && typeOk reqType info.type) with
          | some info =>
            let p := initFile r i info.id s
            (.promisedFile p.1, p.2)
          | none => (.nullRes, s)

/-- FolderTree.getNested, depth first over the branch graph with fuel for
the recursion; a truthy local result, including a pending or rejected
promise, is returned as is. -/
def getNested (r : Remote) (arg : String) (reqType : Option String) :
    Nat → Nat → Sys → GetLocalRes × Sys
  | 0, _, s => (.nullRes, s)
  | fuel + 1, i, s =>
    let fs := getLocal r i arg reqType s
    if truthy fs.1 then fs
    else
      match fs.2.nodes[i]? with
      | none => (.nullRes, fs.2)
      | some nd =>
        nd.branches.foldl (fun acc j =>
          if truthy acc.1 then acc else getNested r arg reqType fuel j acc.2)
          (GetLocalRes.nullRes, fs.2)

/-- The while loop at the top of FolderTree.get: climb the parent chain to
the top, fuel bounded. -/
def topParent (s : Sys) : Nat → Nat → Nat
  | 0, i => i
  | fuel + 1, i =>
    match s.nodes[i]? with
    | some nd =>
      match nd.parent with
      | some p => topParent s fuel p
      | none => i
    | none => i

/-- FolderTree.get: climb to the top parent, then search downward. -/
def treeGet (r : Remote) (i : Nat) (arg : String) (reqType : Option String) (s : Sys) :
    GetLocalRes × Sys :=
  getNested r arg reqType (s.nodes.length + 1) (topParent s s.nodes.length i) s

/-- The Manager state: the node heap, the indices of the root drive trees,
and the cached drive infos collected at start up. -/
structure MState where
  sys : Sys
  driveTrees : List Nat
  allDriveInfos : List Info
deriving DecidableEq, Repr

/-- A cached drive info presented as the record retrieveInfo answers with
for it: no mime type and no parents property. -/
def infoAsRecord (di : Info) : GFile :=
  { id := di.id, name := di.name, mimeType := none, parents := [], trashed := false }

/-- Manager.retrieveInfo: the drive info cache is scanned first, otherwise
one files get call goes out; its failure leaves the awaited result
undefined. -/
def retrieveInfo (r : Remote) (m : MState) (fid : String) : Option GFile × MState :=
  match m.allDriveInfos.find? (fun di => di.id == fid) with
  | some di => (some (infoAsRecord di), m)
  | none => (filesGet r fid, { m with sys := m.sys.addCalls 1 })

/-- The scan of driveTrees at the top of Manager.getDrive. -/
def scanDrives (m : MState) (driveID : String) : Option Nat :=
  m.driveTrees.find? (fun t =>
    match m.sys.nodes[t]? with
    | some nd => nd.info.id == driveID
    | none => false)

/-- Manager.getDrive: an existing root tree is returned; otherwise the id
is fetched and, when the record has no parents property, registered as a
new root tree, whose constructor runs discovery, and the recursive retry
then finds it. A record that does have parents makes the method resolve to
undefined. -/
def getDrive (r : Remote) (m : MState) (driveID : String) : Option Nat × MState :=
  match scanDrives m driveID with
  | some t => (some t, m)
  | none =>
    let fetched := retrieveInfo r m driveID
    let m1 := fetched.2
    match fetched.1 with
    | none => (none, m1)
    | some gf =>
      if gf.parents.isEmpty then
        let made := mkTree r "FOLDER" (parseFolderInfo gf) none m1.sys
        let m2 := { m1 with sys := made.2, driveTrees := m1.driveTrees ++ [made.1] }
        (scanDrives m2 driveID, m2)
      else (none, m1)

/-- The upward walk of Manager.search: starting from the first parent id of
the candidate, ancestor ids are recorded until an id is among the known
drive ids or the fetched record has no parents property; in the latter case
the loop breaks with the id just recorded still the current one. The fetch
goes through retrieveInfo, whose drive cache cannot hit inside the loop
because the loop condition already failed for the id. Fuel bounds the walk;
a missing record makes the walk throw on the undefined response. -/
def walkUp (r : Remote) (dis : List Info) :
    Nat → String → List String → Sys → Outcome (String × List String) × Sys
  | 0, _, _, s => (.hang, s)
  | fuel + 1, parentFolder, acc, s =>
    if (dis.map (fun di => di.id)).contains parentFolder then (.ok (parentFolder, acc), s)
    else
      let fetch : Option GFile × Sys :=
        match dis.find? (fun di => di.id == parentFolder) with
        | some di => (some (infoAsRecord di), s)
        | none => (filesGet r parentFolder, s.addCalls 1)
      match fetch.1 with
      | none => (.err .typeErr, fetch.2)
      | some gf =>
        let acc1 := acc ++ [gf.id]
        if gf.parents.isEmpty then (.ok (parentFolder, acc1), fetch.2)
        else walkUp r dis fuel (gf.parents.headD "") acc1 fetch.2

/-- The downward walk of Manager.search, written over the reversed ancestor
list because the source pops ids off the array end: pop, initFolder on the
current folder, recheck, until the id of the current folder equals the
target, the ancestor id closest to the candidate. An undefined initFolder
result makes the following id read throw, and so does popping an exhausted
list. -/
def walkDownRev (r : Remote) (target : String) :
    List String → Nat → Sys → Outcome Nat × Sys
  | [], i, s =>
    match s.nodes[i]? with
    | none => (.err .typeErr, s)
    | some nd =>
      if nd.info.id == target then (.ok i, s) else (.err .typeErr, s)
  | nextID :: rest, i, s =>
    match s.nodes[i]? with
    | none => (.err .typeErr, s)
    | some nd =>
      if nd.info.id == target then (.ok i, s)
      else
        match initFolder r i nextID s with
        | (.ok (some j), s1) => walkDownRev r target rest j s1
        | (.ok none, s1) => (.err .typeErr, s1)
        | (.err e, s1) => (.err e, s1)
        | (.hang, s1) => (.hang, s1)

/-- The value domain of Manager.search as an awaiting caller sees it. The
raw constructor stands for handing back a bare metadata record directly; it
is part of the domain so that the specified behavior can be stated and
compared, and the modeled code never produces it. -/
inductive SearchRes
  | fromGet (g : GetLocalRes)
  | tree (i : Nat)
  | fileWrap (isSheet : Bool) (record : GFile)
  | raw (record : GFile)
  | nullRes
  | crash
  | hangRes
deriving DecidableEq, Repr

/-- The candidate selection inside Manager.search: the query result list,
narrowed to the prompted index when more than one record matched and
prompting is on, then the first element. An out of range prompt answer
leaves no candidate, which matches the undefined element the source would
pick. -/
def chosenFile (r : Remote) (name : String) (prompt : Bool) (chosen : Nat) : Option GFile :=
  let files0 := searchQuery r name
  let files := if files0.length > 1 && prompt then (files0[chosen]?).toList else files0
  files.head?

/-- The opening loop of Manager.search: every root tree is searched with
get and the first truthy find is returned. -/
def searchCacheScan (r : Remote) (name : String) : List Nat → Sys → Option GetLocalRes × Sys
  | [], s => (none, s)
  | t :: rest, s =>
    let fs := treeGet r t name none s
    if truthy fs.1 then (some fs.1, fs.2) else searchCacheScan r name rest fs.2

/-- The mime type test the source runs on the raw candidate record. -/
def mimeIsFolder (og : Option String) : Bool :=
  match og with
  | some m => strIncludes m "folder"
  | none => false

/-- genFile applied to a raw record, as the search method does with the
candidate when it does not initialize the path. -/
def genFileRawIsSheet (f : GFile) : Bool :=
  match f.mimeType with
  | some m => strIncludes m "spreadsheet"
  | none => false

/-- Remote calls fired by constructing the genFile instance for a raw
record. -/
def genFileRawCalls (f : GFile) : Nat := if genFileRawIsSheet f then 1 else 0

/-- Manager.search. Unless override is set the drive trees are scanned
first and a truthy find is returned at once. Then one list query runs, the
candidate is chosen, with the chosen argument standing for the answer the
prompt collects, and with initAll false the candidate is handed to genFile
and returned without touching any tree. With initAll true the ancestor
chain is walked up to a known drive id or a parentless record, the root
tree is resolved through getDrive, the recorded chain is walked back down
through initFolder, and the candidate itself is materialized by initFolder
for a folder or by searchAndInit for a file. -/
def search (r : Remote) (name : String) (initAll prompt override : Bool) (chosen : Nat)
    (m : MState) : SearchRes × MState :=
  let scanned := if override then (none, m.sys) else searchCacheScan r name m.driveTrees m.sys
  let m1 : MState := { m with sys := scanned.2 }
  match scanned.1 with
  | some f => (.fromGet f, m1)
  | none =>
    let m2 : MState := { m1 with sys := m1.sys.addCalls 1 }
    match chosenFile r name prompt chosen with
    | none => (.crash, m2)
    | some myFile =>
      if initAll then
        match myFile.parents.head? with
        | none => (.crash, m2)
        | some p0 =>
          match walkUp r m2.allDriveInfos (r.files.length + 1) p0 [] m2.sys with
          | (.ok (parentFolder, seq), sys3) =>
            let m3 : MState := { m2 with sys := sys3 }
            match getDrive r m3 parentFolder with
            | (some folderIdx, m4) =>
              match seq.head? with
              | none => (.crash, m4)
              | some target =>
                match walkDownRev r target seq.reverse folderIdx m4.sys with
                | (.ok fIdx, sys5) =>
                  let m5 : MState := { m4 with sys := sys5 }
                  if mimeIsFolder myFile.mimeType then
                    match initFolder r fIdx myFile.id m5.sys with
                    | (.ok (some j), sys6) => (.tree j, { m5 with sys := sys6 })
                    | (.ok none, sys6) => (.nullRes, { m5 with sys := sys6 })
                    | (.err _, sys6) => (.crash, { m5 with sys := sys6 })
                    | (.hang, sys6) => (.hangRes, { m5 with sys := sys6 })
                  else
                    match searchAndInit r fIdx myFile.id m5.sys with
                    | (.ok (some j), sys6) => (.tree j, { m5 with sys := sys6 })
                    | (.ok none, sys6) => (.nullRes, { m5 with sys := sys6 })
                    | (.err _, sys6) => (.crash, { m5 with sys := sys6 })
                    | (.hang, sys6) => (.hangRes, { m5 with sys := sys6 })
                | (.err _, sys5) => (.crash, { m4 with sys := sys5 })
                | (.hang, sys5) => (.hangRes, { m4 with sys := sys5 })
            | (none, m4) => (.crash, m4)
          | (.err _, sys3) => (.crash, { m2 with sys := sys3 })
          | (.hang, sys3) => (.hangRes, { m2 with sys := sys3 })
      else
        (.fileWrap (genFileRawIsSheet myFile) myFile,
         { m2 with sys := m2.sys.addCalls (genFileRawCalls myFile) })

/-- The upward parent chain from a node, fuel bounded, starting with the
node itself. -/
def parentChain (s : Sys) : Nat → Nat → List Nat
  | 0, _ => []
  | fuel + 1, i =>
    i :: (match s.nodes[i]? with
      | some nd =>
        match nd.parent with
        | some p => parentChain s fuel p
        | none => []
      | none => [])

/-- The ids recorded in the child metadata of a node. -/
def metaIds (nd : Node) : List String :=
  nd.childFolderInfo.map (fun info => info.id) ++ nd.childFileInfo.map (fun info => info.id)

/-- The metadata invariant of the specification: every materialized branch
id is recorded in the child metadata of its parent. -/
def metaOKb (s : Sys) : Bool :=
  s.nodes.all (fun nd => (branchIds s nd).all (fun b => (metaIds nd).contains b))

/-- Well formed branch pointers: every branch index lies inside the heap. -/
def wfB (s : Sys) : Bool :=
  s.nodes.all (fun nd => nd.branches.all (fun j => decide (j < s.nodes.length)))

/-- Iterated init calls against the same node. -/
def initN (r : Remote) (i : Nat) : Nat → Sys → Sys
  | 0, s => s
  | n + 1, s => initN r i n (init r i s).2

/-- The folder mime type string of the drive API. -/
def folderMime : String := "application/vnd.google-apps.folder"

/-- The document mime type string of the drive API. -/
def docMime : String := "application/vnd.google-apps.document"

/-- Shorthand for a metadata value, fields in declaration order: type, id,
name, parents, first parent, mime type. -/
def mkInfo (t i n : String) (ps : List String) (p : Option String) (mt : Option String) :
    Info :=
  { type := t, id := i, name := n, parents := ps, parent := p, mimeType := mt }

/-- Shorthand for a remote record, fields in declaration order: id, name,
mime type, parents. -/
def mkG (i n : String) (mt : Option String) (ps : List String) : GFile :=
  { id := i, name := n, mimeType := mt, parents := ps, trashed := false }

/-- Shorthand for a heap node, fields in declaration order: type, info,
parent index, branches, folder metadata, file metadata, ready. -/
def mkNode (t : String) (info : Info) (p : Option Nat) (bs : List Nat)
    (cfo cfi : List Info) (rdy : Bool) : Node :=
  { type := t, info := info, parent := p, branches := bs, childFolderInfo := cfo,
    childFileInfo := cfi, ready := rdy }

/-- Remote store for the sequential double discovery experiment: one child
folder under the folder f0. -/
def c6Remote : Remote :=
  { files := [mkG "c1" "Child1" (some folderMime) ["f0"]], freshId := "z", failList := [] }

/-- An Unstarted FOLDER tree for f0, as the constructor leaves it right
before its init call runs. -/
def c6Sys : Sys :=
  (mkTreeSync "FOLDER" (mkInfo "FOLDER" "f0" "F0" [] none none) none
    { nodes := [], calls := 0 }).2

/-- Remote store for the concurrent discovery experiment: one child folder
under the folder g0. -/
def c3Remote : Remote :=
  { files := [mkG "k1" "Kid" (some folderMime) ["g0"]], freshId := "z", failList := [] }

/-- An Unstarted FOLDER tree for g0. -/
def c3Sys : Sys :=
  (mkTreeSync "FOLDER" (mkInfo "FOLDER" "g0" "G0" [] none none) none
    { nodes := [], calls := 0 }).2

/-- Remote store for the local lookup experiment: one child folder under
the folder h0. -/
def c7Remote : Remote :=
  { files := [mkG "s1" "Sub" (some folderMime) ["h0"]], freshId := "z", failList := [] }

/-- A Ready FOLDER tree for h0 whose metadata lists the child s1, built by
running the constructor, so one discovery call is already counted. -/
def c7Sys : Sys :=
  (mkTree c7Remote "FOLDER" (mkInfo "FOLDER" "h0" "H0" [] none none) none
    { nodes := [], calls := 0 }).2

/-- Empty remote store used where listing answers do not matter. -/
def c4Remote : Remote := { files := [], freshId := "z", failList := [] }

/-- A Ready FOLDER tree for d0 whose metadata lists one child folder with
id idA and name N. -/
def c4Sys : Sys :=
  { nodes := [mkNode "FOLDER" (mkInfo "FOLDER" "d0" "D0" [] none none) none []
      [mkInfo "FOLDER" "idA" "N" [] none none] [] true],
    calls := 0 }

/-- Remote store whose create call answers with the id newSub. -/
def c5Remote : Remote := { files := [], freshId := "newSub", failList := [] }

/-- A Ready FOLDER tree for e0 with no metadata and no branches. -/
def c5Sys : Sys :=
  { nodes := [mkNode "FOLDER" (mkInfo "FOLDER" "e0" "E0" [] none none) none [] [] [] true],
    calls := 0 }

/-- Remote store whose create call answers with the id nf1. -/
def c8Remote : Remote := { files := [], freshId := "nf1", failList := [] }

/-- A FILE tree for the document x1, the Leaf of the Leaf claims. -/
def c8Sys : Sys :=
  { nodes := [mkNode "FILE" (mkInfo "FILE" "x1" "Doc" [] none (some docMime)) none [] [] [] true],
    calls := 0 }

/-- Remote store for the flat search experiment: one document matching the
query string. -/
def c9Remote : Remote :=
  { files := [mkG "q1" "QueryDoc" (some docMime) ["root1"]], freshId := "z", failList := [] }

/-- The record of that document. -/
def c9Doc : GFile := mkG "q1" "QueryDoc" (some docMime) ["root1"]

/-- A Manager over one empty Ready root tree for root1. -/
def c9M : MState :=
  let rootNode : Node :=
    mkNode "FOLDER" (mkInfo "FOLDER" "root1" "MyDrive" [] none none) none [] [] [] true
  { sys := { nodes := [rootNode], calls := 0 },
    driveTrees := [0],
    allDriveInfos := [mkInfo "FOLDER" "root1" "MyDrive" [] none none] }

/-- Remote store whose listing call for w0 fails. -/
def c2RemoteBad : Remote := { files := [], freshId := "z", failList := ["w0"] }

/-- Remote store whose listing call for w0 succeeds with no children. -/
def c2RemoteGood : Remote := { files := [], freshId := "z", failList := [] }

/-- The node of an Unstarted FOLDER tree for w0. -/
def c2Node : Node := mkNode "FOLDER" (mkInfo "FOLDER" "w0" "W0" [] none none) none [] [] [] false

/-- A heap holding just that node. -/
def c2Sys : Sys := { nodes := [c2Node], calls := 0 }

/-- The remote store of the path reconstruction scenario: the folder A
under the known root, the folder B under A, and the document leafX under B,
the four ids arbitrary. -/
def c1Remote (rid aid bid xid : String) : Remote :=
  { files := [mkG aid "A" (some folderMime) [rid],
      mkG bid "B" (some folderMime) [aid],
      mkG xid "leafX" (some docMime) [bid]],
    freshId := "z", failList := [] }

/-- The Manager of the path reconstruction scenario: one root tree for the
root id, built by the constructor against that remote store, with the root
info also cached as a known drive. -/
def c1Start (rid aid bid xid : String) : MState :=
  { sys := (mkTree (c1Remote rid aid bid xid) "FOLDER" (mkInfo "FOLDER" rid "root" [] none none)
      none { nodes := [], calls := 0 }).2,
    driveTrees := [0],
    allDriveInfos := [mkInfo "FOLDER" rid "root" [] none none] }

/-!
Helper lemmas shared by the claim theorems.
-/

/-- Every init invocation on an existing node puts exactly one listing call
on the counter, whether the listing succeeds or fails. -/
theorem init_calls (r : Remote) (i : Nat) (s : Sys) (nd : Node)
    (h : s.nodes[i]? = some nd) : ((init r i s).2).calls = s.calls + 1 := by
  simp only [init, h]
  cases hl : listChildren r nd.info.id <;>
    simp [hl, Sys.addCalls, Sys.setNode]

/-- init does not change the heap size. -/
theorem init_length (r : Remote) (i : Nat) (s : Sys) :
    ((init r i s).2).nodes.length = s.nodes.length := by
  cases hg : s.nodes[i]? with
  | none => simp [init, hg]
  | some nd =>
    simp only [init, hg]
    cases hl : listChildren r nd.info.id <;>
      simp [hl, Sys.addCalls, Sys.setNode]

/-- A node that exists before an init call still exists after it. -/
theorem init_get_isSome (r : Remote) (i : Nat) (s : Sys) (nd : Node)
    (h : s.nodes[i]? = some nd) : ∃ nd2, ((init r i s).2).nodes[i]? = some nd2 := by
  have hlt : i < s.nodes.length := (List.getElem?_eq_some.mp h).1
  simp only [init, h]
  cases hl : listChildren r nd.info.id with
  | none => simp only [hl]; exact ⟨nd, h⟩
  | some items =>
    simp only [hl]
    exact ⟨_, List.getElem?_set_eq_of_lt _ hlt⟩

/-- On a successful listing, init resolves with ok. -/
theorem init_ok (r : Remote) (i : Nat) (s : Sys) (nd : Node) (items : List GFile)
    (h : s.nodes[i]? = some nd) (hl : listChildren r nd.info.id = some items) :
    (init r i s).1 = Outcome.ok () := by
  simp only [init, h, hl]

/-- On a successful listing, init leaves the node Ready with the parsed
children appended. -/
theorem init_ready (r : Remote) (i : Nat) (s : Sys) (nd : Node) (items : List GFile)
    (h : s.nodes[i]? = some nd) (hl : listChildren r nd.info.id = some items) :
    ((init r i s).2).nodes[i]? = some { nd with
      childFolderInfo := nd.childFolderInfo ++ (splitItems items).1,
      childFileInfo := nd.childFileInfo ++ (splitItems items).2,
      ready := true } := by
  have hlt : i < s.nodes.length := (List.getElem?_eq_some.mp h).1
  simp only [init, h, hl, Sys.addCalls, Sys.setNode]
  exact List.getElem?_set_eq_of_lt _ hlt

/-- init touches no heap slot other than the one it runs on. -/
theorem init_get_other (r : Remote) (i j : Nat) (s : Sys) (hne : i ≠ j) :
    ((init r i s).2).nodes[j]? = s.nodes[j]? := by
  cases hg : s.nodes[i]? with
  | none => simp [init, hg]
  | some nd =>
    simp only [init, hg]
    cases hl : listChildren r nd.info.id with
    | none => simp [hl, Sys.addCalls]
    | some items =>
      simp only [hl, Sys.addCalls, Sys.setNode]
      exact List.getElem?_set_ne hne

/-!
Claim theorems, their witnesses and counterexamples. The claim identifiers
refer to the frozen claim list of the specification review.
-/

/-- C2: when the listing call of a discovery fails, init rejects with the
remote failure, the node keeps ready false with its metadata untouched, so
it is back in the Unstarted state rather than stuck mid discovery, and a
subsequent init call against a working remote performs the listing again
and succeeds, leaving the node Ready. -/
theorem init_failure_rollback (r1 r2 : Remote) (s : Sys) (i : Nat) (nd : Node)
    (h1 : s.nodes[i]? = some nd) (h2 : nd.ready = false)
    (h3 : listChildren r1 nd.info.id = none)
    (h4 : listChildren r2 nd.info.id ≠ none) :
    init r1 i s = (Outcome.err JsErr.remoteUnavailable, s.addCalls 1) ∧
    ((init r1 i s).2).nodes = s.nodes ∧
    (init r2 i (init r1 i s).2).1 = Outcome.ok () ∧
    ((init r2 i (init r1 i s).2).2).calls = s.calls + 2 ∧
    (((init r2 i (init r1 i s).2).2).nodes[i]?).map (fun n => n.ready) = some true := by
  have hlt : i < s.nodes.length := (List.getElem?_eq_some.mp h1).1
  have hfail : init r1 i s = (Outcome.err JsErr.remoteUnavailable, s.addCalls 1) := by
    simp only [init, h1, h3]
  have hnodes : ((init r1 i s).2).nodes = s.nodes := by rw [hfail]; rfl
  have hget : ((init r1 i s).2).nodes[i]? = some nd := by rw [hnodes]; exact h1
  have hcalls1 : ((init r1 i s).2).calls = s.calls + 1 := by rw [hfail]; rfl
  refine ⟨hfail, hnodes, ?_, ?_, ?_⟩
  · cases hl2 : listChildren r2 nd.info.id with
    | none => exact absurd hl2 h4
    | some items => exact init_ok r2 i _ nd items hget hl2
  · rw [init_calls r2 _ _ nd hget, hcalls1]
  · cases hl2 : listChildren r2 nd.info.id with
    | none => exact absurd hl2 h4
    | some items => rw [init_ready r2 i _ nd items hget hl2]; rfl

/-- C2 witness: the rollback theorem applied to an Unstarted folder node
whose listing fails on the first remote store and succeeds on the second. -/
theorem init_failure_rollback_witness :
    (c2Sys.nodes[0]? = some c2Node ∧ c2Node.ready = false ∧
      listChildren c2RemoteBad c2Node.info.id = none ∧
      listChildren c2RemoteGood c2Node.info.id ≠ none) ∧
    (init c2RemoteBad 0 c2Sys = (Outcome.err JsErr.remoteUnavailable, c2Sys.addCalls 1) ∧
    ((init c2RemoteBad 0 c2Sys).2).nodes = c2Sys.nodes ∧
    (init c2RemoteGood 0 (init c2RemoteBad 0 c2Sys).2).1 = Outcome.ok () ∧
    ((init c2RemoteGood 0 (init c2RemoteBad 0 c2Sys).2).2).calls = c2Sys.calls + 2 ∧
    (((init c2RemoteGood 0 (init c2RemoteBad 0 c2Sys).2).2).nodes[0]?).map (fun n => n.ready)
      = some true) :=
  ⟨⟨by decide, by decide, by decide, by decide⟩,
   init_failure_rollback c2RemoteBad c2RemoteGood c2Sys 0 c2Node
     (by decide) (by decide) (by decide) (by decide)⟩

/-- C6 counterexample: on the same Unstarted node, the first init call
lists and leaves the node Ready, yet a second sequential call is not a no-op:
it issues a second listing call, for two in total rather than the one the
claim states, and it appends the children a second time. -/
theorem init_twice_two_calls :
    (((init c6Remote 0 c6Sys).2.nodes[0]?).map (fun nd => nd.ready) = some true) ∧
    ((init c6Remote 0 (init c6Remote 0 c6Sys).2).2.calls = 2) ∧
    ¬ ((init c6Remote 0 (init c6Remote 0 c6Sys).2).2.calls = 1) ∧
    ((init c6Remote 0 (init c6Remote 0 c6Sys).2).2.nodes[0]?).map
      (fun nd => nd.childFolderInfo.length) = some 2 := by decide

/-- C6 amended: init performs exactly one remote listing call per
invocation, with no guard on the readiness flag, so two sequential calls
issue two listing calls; the once-only behavior of discovery holds only
because the constructor is the sole caller of init. -/
theorem init_call_per_invocation (r1 r2 : Remote) (s : Sys) (i : Nat) (nd : Node)
    (h : s.nodes[i]? = some nd) :
    ((init r1 i s).2).calls = s.calls + 1 ∧
    ((init r2 i (init r1 i s).2).2).calls = s.calls + 2 := by
  obtain ⟨nd2, h2⟩ := init_get_isSome r1 i s nd h
  refine ⟨init_calls r1 i s nd h, ?_⟩
  rw [init_calls r2 i _ nd2 h2, init_calls r1 i s nd h]

/-- C6 amended witness: the per invocation count applied to the double
discovery fixture. -/
theorem init_call_per_invocation_witness :
    (c6Sys.nodes[0]? = some (mkNode "FOLDER" (mkInfo "FOLDER" "f0" "F0" [] none none)
      none [] [] [] false)) ∧
    ((init c6Remote 0 c6Sys).2).calls = c6Sys.calls + 1 ∧
    ((init c6Remote 0 (init c6Remote 0 c6Sys).2).2).calls = c6Sys.calls + 2 :=
  ⟨by decide,
   init_call_per_invocation c6Remote c6Remote c6Sys 0
     (mkNode "FOLDER" (mkInfo "FOLDER" "f0" "F0" [] none none) none [] [] [] false)
     (by decide)⟩

/-- C3 counterexample: three discovery requests against the same Unstarted
node issue three remote listing calls, not the single shared one the claim
states; each init invocation fires its own listing before any awaiting
happens, so every interleaving of the three concurrent requests issues
three calls, the sequential schedule shown here among them. -/
theorem init_three_requests_three_calls :
    (initN c3Remote 0 3 c3Sys).calls = 3 ∧ ¬ ((initN c3Remote 0 3 c3Sys).calls = 1) := by
  decide

/-- C3 amended: n discovery requests against the same node issue n remote
listing calls, one per invocation; the at-most-one in-flight discovery per
node holds in practice only because the constructor is the sole caller of
init, and a caller that needs readiness, initFolder, waits by polling the
ready flag at a fixed half second interval rather than by awaiting a shared
pending operation. -/
theorem initN_n_requests_n_calls (r : Remote) (i : Nat) (n : Nat) (s : Sys) (nd : Node)
    (h : s.nodes[i]? = some nd) : (initN r i n s).calls = s.calls + n := by
  induction n generalizing s nd with
  | zero => rfl
  | succ k ih =>
    obtain ⟨nd2, h2⟩ := init_get_isSome r i s nd h
    show (initN r i k (init r i s).2).calls = s.calls + (k + 1)
    rw [ih _ _ h2, init_calls r i s nd h]
    omega

/-- C3 amended witness: five requests, five listing calls. -/
theorem initN_n_requests_n_calls_witness :
    (c3Sys.nodes[0]? = some (mkNode "FOLDER" (mkInfo "FOLDER" "g0" "G0" [] none none)
      none [] [] [] false)) ∧
    (initN c3Remote 0 5 c3Sys).calls = c3Sys.calls + 5 :=
  ⟨by decide,
   initN_n_requests_n_calls c3Remote 0 5 c3Sys
     (mkNode "FOLDER" (mkInfo "FOLDER" "g0" "G0" [] none none) none [] [] [] false)
     (by decide)⟩

/-- C4: the duplicate materialization guard of initFolder compares its
argument against the ids of the materialized branches, so when the
argument is the name of an already materialized folder the guard misses and
a second FolderTree with the same id is created: after two initFolder calls
with the name N the node carries two branches both with id idA, although
the claim, and the doc comment of initFolder itself, promise that an
already initialized folder is not initialized again. -/
theorem initFolder_by_name_duplicates :
    ((initFolder c4Remote 0 "N" c4Sys).1
      = Outcome.ok (some 1)) ∧
    ((initFolder c4Remote 0 "N" (initFolder c4Remote 0 "N" c4Sys).2).1
      = Outcome.ok (some 2)) ∧
    (((initFolder c4Remote 0 "N" (initFolder c4Remote 0 "N" c4Sys).2).2.nodes[0]?).map
      (fun nd => branchIds (initFolder c4Remote 0 "N" (initFolder c4Remote 0 "N" c4Sys).2).2 nd)
      = some ["idA", "idA"]) := by decide

/-- C5 counterexample: createFolder pushes the new branch directly, without
recording any metadata entry for it, so the invariant that every branch id
appears in the child metadata fails right after a createFolder call on a
state where it held. -/
theorem createFolder_breaks_metadata :
    metaOKb c5Sys = true ∧ wfB c5Sys = true ∧
    metaOKb ((createFolder c5Remote 0 "Sub" c5Sys).2) = false := by decide

/-- C7 counterexample: a getLocal lookup that matches an un-materialized
folder metadata entry materializes it, and the constructor of the new child
immediately issues its discovery listing call, so the lookup does issue a
remote call, against the zero the claim states. -/
theorem getLocal_materialize_issues_call :
    ((getLocal c7Remote 0 "s1" none c7Sys).2).calls = c7Sys.calls + 1 ∧
    ¬ (((getLocal c7Remote 0 "s1" none c7Sys).2).calls = c7Sys.calls) := by decide

/-- C8 counterexample: createFolder runs no type check on its node, so on a
FILE tree, a Leaf, it does not fail with the invalid operation error at
all: with the remote create succeeding it materializes a branch under the
Leaf and returns it. -/
theorem createFolder_on_leaf_succeeds :
    (createFolder c8Remote 0 "Sub" c8Sys).1 = Outcome.ok 1 ∧
    (((createFolder c8Remote 0 "Sub" c8Sys).2).nodes[0]?).map (fun nd => nd.branches)
      = some [1] := by decide

/-- C9 counterexample: a search that skips path materialization hands back
genFile of the candidate, a file wrapper object holding the raw record, and
not the raw metadata record itself. -/
theorem search_flat_returns_wrapper :
    (search c9Remote "QueryDoc" false true false 0 c9M).1 = SearchRes.fileWrap false c9Doc ∧
    ¬ ((search c9Remote "QueryDoc" false true false 0 c9M).1 = SearchRes.raw c9Doc) := by
  decide

/-- C10: a FolderTree constructed with any type other than FOLDER, in
particular a FILE tree, is ready immediately, issues no remote call, and
has empty child metadata; only a FOLDER construction starts non ready and
fires the single discovery call from the constructor. -/
theorem constructor_file_ready (r : Remote) (t : String) (info : Info) (par : Option Nat)
    (s : Sys) (h : t ≠ "FOLDER") :
    mkTree r t info par s = mkTreeSync t info par s ∧
    ((mkTreeSync t info par s).2).calls = s.calls ∧
    ((mkTreeSync t info par s).2).nodes[s.nodes.length]?
      = some (mkNode t info par [] [] [] true) ∧
    (((mkTreeSync "FOLDER" info par s).2).nodes[s.nodes.length]?).map (fun nd => nd.ready)
      = some false ∧
    ((mkTree r "FOLDER" info par s).2).calls = s.calls + 1 := by
  have hb : (t == "FOLDER") = false := beq_eq_false_iff_ne.mpr h
  refine ⟨?_, rfl, ?_, ?_, ?_⟩
  · simp [mkTree, hb]
  · simp only [mkTreeSync, hb]
    rw [List.getElem?_concat_length]
    simp [mkNode]
  · simp only [mkTreeSync]
    rw [List.getElem?_concat_length]
    rfl
  · have hsync : ((mkTreeSync "FOLDER" info par s).2).nodes[s.nodes.length]?
        = some (mkNode "FOLDER" info par [] [] [] false) := by
      simp only [mkTreeSync]
      rw [List.getElem?_concat_length]
      rfl
    have hstep : mkTree r "FOLDER" info par s
        = (s.nodes.length, (init r s.nodes.length (mkTreeSync "FOLDER" info par s).2).2) := rfl
    rw [hstep, init_calls r s.nodes.length _ (mkNode "FOLDER" info par [] [] [] false) hsync]
    rfl

/-- C10 witness: the constructor theorem applied to a FILE tree over the
empty heap. -/
theorem constructor_file_ready_witness :
    (("FILE" : String) ≠ "FOLDER") ∧
    (mkTree c4Remote "FILE" (mkInfo "FILE" "wf" "WF" [] none (some docMime)) none
        { nodes := [], calls := 0 }
      = mkTreeSync "FILE" (mkInfo "FILE" "wf" "WF" [] none (some docMime)) none
        { nodes := [], calls := 0 } ∧
    ((mkTreeSync "FILE" (mkInfo "FILE" "wf" "WF" [] none (some docMime)) none
        { nodes := [], calls := 0 }).2).calls = 0 ∧
    ((mkTreeSync "FILE" (mkInfo "FILE" "wf" "WF" [] none (some docMime)) none
        { nodes := [], calls := 0 }).2).nodes[(0 : Nat)]?
      = some (mkNode "FILE" (mkInfo "FILE" "wf" "WF" [] none (some docMime)) none [] [] [] true) ∧
    ((((mkTreeSync "FOLDER" (mkInfo "FILE" "wf" "WF" [] none (some docMime)) none
        { nodes := [], calls := 0 }).2).nodes[(0 : Nat)]?).map (fun nd => nd.ready))
      = some false ∧
    ((mkTree c4Remote "FOLDER" (mkInfo "FILE" "wf" "WF" [] none (some docMime)) none
        { nodes := [], calls := 0 }).2).calls = 0 + 1) :=
  ⟨by decide,
   constructor_file_ready c4Remote "FILE" (mkInfo "FILE" "wf" "WF" [] none (some docMime))
     none { nodes := [], calls := 0 } (by decide)⟩

/-- C8 amended: addBranch on a Leaf, a FILE tree, fails with the invalid
operation error and leaves the whole heap unchanged, whatever branch type
is requested; createFile on a Leaf also ends in that failure, but only
after appending the created file record to the childFileInfo of the Leaf;
and createFolder on a Leaf performs no local type check at all: with the
remote create succeeding it materializes a branch under the Leaf and
returns it. -/
theorem leaf_child_addition (r : Remote) (s : Sys) (i : Nat) (nd : Node) (t : String)
    (info : Info) (nm mime : String)
    (h1 : s.nodes[i]? = some nd) (h2 : nd.type = "FILE") :
    addBranch r i t info s = (Outcome.err JsErr.branchOnFile, s) ∧
    (createFile r i nm mime s).1 = Outcome.err JsErr.branchOnFile ∧
    (((createFile r i nm mime s).2).nodes[i]?).map (fun n => n.childFileInfo)
      = some (nd.childFileInfo ++ [parseFileInfo (filesCreate r nm mime nd.info.id)]) ∧
    (createFolder r i nm s).1 = Outcome.ok s.nodes.length ∧
    (((createFolder r i nm s).2).nodes[i]?).map (fun n => n.branches)
      = some (nd.branches ++ [s.nodes.length]) := by
  have hlt : i < s.nodes.length := (List.getElem?_eq_some.mp h1).1
  have hbr : ∀ (t0 : String) (info0 : Info) (s0 : Sys) (nd0 : Node),
      s0.nodes[i]? = some nd0 → nd0.type = "FILE" →
      addBranch r i t0 info0 s0 = (Outcome.err JsErr.branchOnFile, s0) := by
    intro t0 info0 s0 nd0 h0 ht0
    have hx : (nd0.type != "FILE") = false := by rw [ht0]; rfl
    have hy : (nd0.type == "FILE") = true := by rw [ht0]; rfl
    simp [addBranch, h0, hx, hy]
  refine ⟨hbr t info s nd h1 h2, ?_⟩
  have parsedF := parseFileInfo (filesCreate r nm mime nd.info.id)
  have hndF : (((s.addCalls 1).setNode i
        { nd with childFileInfo := nd.childFileInfo ++
            [parseFileInfo (filesCreate r nm mime nd.info.id)] }).addCalls
        (genFileCalls (parseFileInfo (filesCreate r nm mime nd.info.id)))).nodes[i]?
      = some { nd with childFileInfo := nd.childFileInfo ++
            [parseFileInfo (filesCreate r nm mime nd.info.id)] } := by
    simp only [Sys.addCalls, Sys.setNode]
    exact List.getElem?_set_eq_of_lt _ hlt
  have hcf : createFile r i nm mime s
      = (Outcome.err JsErr.branchOnFile,
         ((s.addCalls 1).setNode i
           { nd with childFileInfo := nd.childFileInfo ++
               [parseFileInfo (filesCreate r nm mime nd.info.id)] }).addCalls
           (genFileCalls (parseFileInfo (filesCreate r nm mime nd.info.id)))) := by
    simp only [createFile, h1]
    exact hbr "FILE" _ _ _ hndF h2
  refine ⟨by rw [hcf], ?_, ?_, ?_⟩
  · rw [hcf, hndF]; rfl
  all_goals {
    have hsyncGet : ((mkTreeSync "FOLDER"
          (parseFolderInfo (filesCreate r nm "application/vnd.google-apps.folder" nd.info.id))
          (some i) (s.addCalls 1)).2).nodes[i]? = some nd := by
      simp only [mkTreeSync, Sys.addCalls]
      rw [List.getElem?_append_left hlt]
      exact h1
    have hmadeGet : ((mkTree r "FOLDER"
          (parseFolderInfo (filesCreate r nm "application/vnd.google-apps.folder" nd.info.id))
          (some i) (s.addCalls 1)).2).nodes[i]? = some nd := by
      have hstep : (mkTree r "FOLDER"
            (parseFolderInfo (filesCreate r nm "application/vnd.google-apps.folder" nd.info.id))
            (some i) (s.addCalls 1)).2
          = (init r (s.addCalls 1).nodes.length
              ((mkTreeSync "FOLDER"
                (parseFolderInfo (filesCreate r nm "application/vnd.google-apps.folder" nd.info.id))
                (some i) (s.addCalls 1)).2)).2 := rfl
      rw [hstep,
        init_get_other r ((s.addCalls 1).nodes.length) i _ (Nat.ne_of_gt hlt)]
      exact hsyncGet
    have hfst : (mkTree r "FOLDER"
          (parseFolderInfo (filesCreate r nm "application/vnd.google-apps.folder" nd.info.id))
          (some i) (s.addCalls 1)).1 = s.nodes.length := rfl
    have hmlen : ((mkTree r "FOLDER"
          (parseFolderInfo (filesCreate r nm "application/vnd.google-apps.folder" nd.info.id))
          (some i) (s.addCalls 1)).2).nodes.length = s.nodes.length + 1 := by
      have hstep : (mkTree r "FOLDER"
            (parseFolderInfo (filesCreate r nm "application/vnd.google-apps.folder" nd.info.id))
            (some i) (s.addCalls 1)).2
          = (init r (s.addCalls 1).nodes.length
              ((mkTreeSync "FOLDER"
                (parseFolderInfo (filesCreate r nm "application/vnd.google-apps.folder" nd.info.id))
                (some i) (s.addCalls 1)).2)).2 := rfl
      rw [hstep, init_length]
      simp [mkTreeSync, Sys.addCalls]
    have hcfo : createFolder r i nm s
        = (Outcome.ok (mkTree r "FOLDER"
            (parseFolderInfo (filesCreate r nm "application/vnd.google-apps.folder" nd.info.id))
            (some i) (s.addCalls 1)).1,
           ((mkTree r "FOLDER"
            (parseFolderInfo (filesCreate r nm "application/vnd.google-apps.folder" nd.info.id))
            (some i) (s.addCalls 1)).2).setNode i
            { nd with branches := nd.branches ++
                [(mkTree r "FOLDER"
                  (parseFolderInfo (filesCreate r nm "application/vnd.google-apps.folder" nd.info.id))
                  (some i) (s.addCalls 1)).1] }) := by
      simp only [createFolder, h1, hmadeGet]
    first
    | (rw [hcfo, hfst]; done)
    | (rw [hcfo, hfst]
       simp only [Sys.setNode]
       rw [List.getElem?_set_eq_of_lt _ (by rw [hmlen]; exact Nat.lt_succ_of_lt hlt)]
       rfl)
  }

/-- C8 amended witness: the Leaf theorem applied to the FILE tree fixture,
with a FOLDER add attempt, a document create and a folder create. -/
theorem leaf_child_addition_witness :
    (c8Sys.nodes[0]?
        = some (mkNode "FILE" (mkInfo "FILE" "x1" "Doc" [] none (some docMime)) none [] [] [] true) ∧
      (mkNode "FILE" (mkInfo "FILE" "x1" "Doc" [] none (some docMime)) none [] [] [] true).type
        = "FILE") ∧
    (addBranch c8Remote 0 "FOLDER" (mkInfo "FOLDER" "zz" "ZZ" [] none none) c8Sys
      = (Outcome.err JsErr.branchOnFile, c8Sys) ∧
    (createFile c8Remote 0 "NewDoc" docMime c8Sys).1 = Outcome.err JsErr.branchOnFile ∧
    (((createFile c8Remote 0 "NewDoc" docMime c8Sys).2).nodes[(0 : Nat)]?).map
        (fun n => n.childFileInfo)
      = some ((mkNode "FILE" (mkInfo "FILE" "x1" "Doc" [] none (some docMime))
          none [] [] [] true).childFileInfo ++
          [parseFileInfo (filesCreate c8Remote "NewDoc" docMime
            (mkNode "FILE" (mkInfo "FILE" "x1" "Doc" [] none (some docMime))
              none [] [] [] true).info.id)]) ∧
    (createFolder c8Remote 0 "NewDoc" c8Sys).1 = Outcome.ok c8Sys.nodes.length ∧
    (((createFolder c8Remote 0 "NewDoc" c8Sys).2).nodes[(0 : Nat)]?).map (fun n => n.branches)
      = some ((mkNode "FILE" (mkInfo "FILE" "x1" "Doc" [] none (some docMime))
          none [] [] [] true).branches ++ [c8Sys.nodes.length])) :=
  ⟨⟨by decide, by decide⟩,
   leaf_child_addition c8Remote c8Sys 0
     (mkNode "FILE" (mkInfo "FILE" "x1" "Doc" [] none (some docMime)) none [] [] [] true)
     "FOLDER" (mkInfo "FOLDER" "zz" "ZZ" [] none none) "NewDoc" docMime
     (by decide) (by decide)⟩

/-- getLocal either leaves the whole system untouched or has answered from
an auto materializing branch. -/
theorem getLocal_disj (r : Remote) (i : Nat) (arg : String) (rt : Option String) (s : Sys) :
    (getLocal r i arg rt s).2 = s ∨ promisedRes (getLocal r i arg rt s).1 := by
  rcases hg : s.nodes[i]? with _ | nd
  · left; simp [getLocal, hg]
  · simp only [getLocal, hg]
    split
    · left; rfl
    · split
      · left; rfl
      · split
        · left; rfl
        · split
          · right; exact ⟨_, Or.inl rfl⟩
          · split
            · right; exact ⟨_, Or.inr rfl⟩
            · left; rfl

/-- A promised lookup result is truthy. -/
theorem promised_truthy (g : GetLocalRes) (h : promisedRes g) : truthy g = true := by
  rcases h with ⟨o, h | h⟩ <;> rw [h] <;> rfl

/-- A falsy getLocal leaves the system untouched. -/
theorem getLocal_falsy_frame (r : Remote) (i : Nat) (arg : String) (rt : Option String)
    (s : Sys) (h : truthy (getLocal r i arg rt s).1 = false) :
    (getLocal r i arg rt s).2 = s := by
  rcases getLocal_disj r i arg rt s with h2 | h2
  · exact h2
  · rw [promised_truthy _ h2] at h
    cases h

/-- The branch fold of getNested keeps the frame-or-materialize
disjunction. -/
theorem getNestedFold_disj (r : Remote) (arg : String) (rt : Option String) (k : Nat)
    (s : Sys)
    (ihk : ∀ (j : Nat) (s0 : Sys), (getNested r arg rt k j s0).2 = s0 ∨
      promisedRes (getNested r arg rt k j s0).1) :
    ∀ (js : List Nat) (acc : GetLocalRes × Sys),
    (acc.2 = s ∨ promisedRes acc.1) →
    ((js.foldl (fun acc j => if truthy acc.1 then acc else getNested r arg rt k j acc.2)
        acc).2 = s ∨
      promisedRes ((js.foldl (fun acc j =>
        if truthy acc.1 then acc else getNested r arg rt k j acc.2) acc).1)) := by
  intro js
  induction js with
  | nil => intro acc h; exact h
  | cons j rest ihl =>
    intro acc h
    simp only [List.foldl_cons]
    by_cases htr : truthy acc.1 = true
    · rw [if_pos htr]
      exact ihl acc h
    · rw [if_neg htr]
      have hs : acc.2 = s := by
        rcases h with h | h
        · exact h
        · exact absurd (promised_truthy _ h) htr
      rcases ihk j acc.2 with h2 | h2
      · exact ihl _ (Or.inl (h2.trans hs))
      · exact ihl _ (Or.inr h2)

/-- getNested either leaves the whole system untouched or has answered from
an auto materializing branch of some getLocal along the way. -/
theorem getNested_disj (r : Remote) (arg : String) (rt : Option String) :
    ∀ (fuel i : Nat) (s : Sys),
    (getNested r arg rt fuel i s).2 = s ∨ promisedRes (getNested r arg rt fuel i s).1 := by
  intro fuel
  induction fuel with
  | zero => intro i s; left; rfl
  | succ k ih =>
    intro i s
    simp only [getNested]
    by_cases ht : truthy (getLocal r i arg rt s).1 = true
    · rw [if_pos ht]
      exact getLocal_disj r i arg rt s
    · rw [if_neg ht]
      have hs2 : (getLocal r i arg rt s).2 = s :=
        getLocal_falsy_frame r i arg rt s (Bool.not_eq_true _ ▸ Bool.of_not_eq_true ht)
      rcases hg : (getLocal r i arg rt s).2.nodes[i]? with _ | nd
      · left; exact hs2
      · exact getNestedFold_disj r arg rt k s ih nd.branches _ (Or.inl hs2)

/-- C7 amended: getLocal and getNested leave the entire system untouched,
heap, tree shape and remote call counter alike, on every path except the
two auto materializing metadata branches, whose result is the materializing
promise; they never surface a remote error themselves, a plain miss being
answered with null and any failure of the fired materialization staying
inside the returned promise value. -/
theorem lookup_frame_or_materialize (r : Remote) (i : Nat) (arg : String)
    (rt : Option String) (s : Sys) (fuel : Nat) :
    ((getLocal r i arg rt s).2 = s ∨ promisedRes (getLocal r i arg rt s).1) ∧
    ((getNested r arg rt fuel i s).2 = s ∨ promisedRes (getNested r arg rt fuel i s).1) :=
  ⟨getLocal_disj r i arg rt s, getNested_disj r arg rt fuel i s⟩

/-- A falsy tree search leaves the system untouched. -/
theorem treeGet_falsy_frame (r : Remote) (t : Nat) (name : String) (s : Sys)
    (h : truthy (treeGet r t name none s).1 = false) :
    (treeGet r t name none s).2 = s := by
  rcases getNested_disj r name none (s.nodes.length + 1) (topParent s s.nodes.length t) s
    with h2 | h2
  · exact h2
  · have h3 := promised_truthy _ h2
    have h4 : truthy (treeGet r t name none s).1 = true := h3
    rw [h] at h4
    cases h4

/-- A cache scan that finds nothing leaves the system untouched. -/
theorem scan_miss_frame (r : Remote) (name : String) :
    ∀ (ts : List Nat) (s : Sys), (searchCacheScan r name ts s).1 = none →
    (searchCacheScan r name ts s).2 = s := by
  intro ts
  induction ts with
  | nil => intro s h; rfl
  | cons t rest ih =>
    intro s h
    simp only [searchCacheScan] at h ⊢
    by_cases ht : truthy (treeGet r t name none s).1 = true
    · rw [if_pos ht] at h; cases h
    · rw [if_neg ht] at h ⊢
      have hfr : (treeGet r t name none s).2 = s :=
        treeGet_falsy_frame r t name s (Bool.not_eq_true _ ▸ ht)
      rw [hfr] at h ⊢
      exact ih s h

/-- C9 amended: a search with path materialization off that chooses a
candidate, whether the drive scan was overridden or simply found nothing,
returns genFile of the candidate, a file wrapper object holding the raw
record rather than the record itself, and mutates no tree: the heap, the
root tree list and the cached drive infos all come out unchanged, only the
remote call counter having moved. -/
theorem search_flat_frame (r : Remote) (name : String) (prompt override : Bool)
    (chosen : Nat) (m : MState) (f : GFile)
    (h1 : override = true ∨ (searchCacheScan r name m.driveTrees m.sys).1 = none)
    (h2 : chosenFile r name prompt chosen = some f) :
    (search r name false prompt override chosen m).1
      = SearchRes.fileWrap (genFileRawIsSheet f) f ∧
    ((search r name false prompt override chosen m).2).sys.nodes = m.sys.nodes ∧
    ((search r name false prompt override chosen m).2).driveTrees = m.driveTrees ∧
    ((search r name false prompt override chosen m).2).allDriveInfos = m.allDriveInfos ∧
    ¬ ((search r name false prompt override chosen m).1 = SearchRes.raw f) := by
  have key : search r name false prompt override chosen m
      = (SearchRes.fileWrap (genFileRawIsSheet f) f,
         { m with sys := (m.sys.addCalls 1).addCalls (genFileRawCalls f) }) := by
    cases hov : override with
    | true =>
      simp only [search, hov, if_true, h2]
      simp
    | false =>
      have hmiss : (searchCacheScan r name m.driveTrees m.sys).1 = none := by
        rcases h1 with h1 | h1
        · rw [hov] at h1; cases h1
        · exact h1
      have hfr : (searchCacheScan r name m.driveTrees m.sys).2 = m.sys :=
        scan_miss_frame r name m.driveTrees m.sys hmiss
      simp only [search, hov, h2]
      simp only [Bool.false_eq_true, if_false]
      rw [hmiss, hfr]
  rw [key]
  refine ⟨rfl, rfl, rfl, rfl, ?_⟩
  intro hcon
  cases hcon

/-- C9 amended witness: the flat search theorem applied to the one document
fixture, with the drive scan running and missing. -/
theorem search_flat_frame_witness :
    ((false = true ∨ (searchCacheScan c9Remote "QueryDoc" c9M.driveTrees c9M.sys).1 = none) ∧
      chosenFile c9Remote "QueryDoc" true 0 = some c9Doc) ∧
    ((search c9Remote "QueryDoc" false true false 0 c9M).1
        = SearchRes.fileWrap (genFileRawIsSheet c9Doc) c9Doc ∧
      ((search c9Remote "QueryDoc" false true false 0 c9M).2).sys.nodes = c9M.sys.nodes ∧
      ((search c9Remote "QueryDoc" false true false 0 c9M).2).driveTrees = c9M.driveTrees ∧
      ((search c9Remote "QueryDoc" false true false 0 c9M).2).allDriveInfos
        = c9M.allDriveInfos ∧
      ¬ ((search c9Remote "QueryDoc" false true false 0 c9M).1 = SearchRes.raw c9Doc)) :=
  ⟨⟨Or.inr (by decide), by decide⟩,
   search_flat_frame c9Remote "QueryDoc" true false 0 c9M c9Doc
     (Or.inr (by decide)) (by decide)⟩

/-- The metadata invariant in quantifier form. -/
theorem metaOKb_iff (s : Sys) :
    metaOKb s = true ↔ ∀ nd ∈ s.nodes, ∀ b ∈ branchIds s nd, b ∈ metaIds nd := by
  simp [metaOKb, List.all_eq_true]

/-- The branch pointer bound in quantifier form. -/
theorem wfB_iff (s : Sys) :
    wfB s = true ↔ ∀ nd ∈ s.nodes, ∀ j ∈ nd.branches, j < s.nodes.length := by
  simp [wfB, List.all_eq_true]

/-- Neither invariant sees the call counter. -/
theorem metaOKb_addCalls (s : Sys) (n : Nat) : metaOKb (s.addCalls n) = metaOKb s := rfl

/-- Pushing a metadata entry onto a node preserves the metadata invariant:
branches are untouched and the metadata only grows. -/
theorem metaOK_pushMeta (s : Sys) (i : Nat) (nd : Node) (parsed : Info)
    (hOK : metaOKb s = true) (hwf : wfB s = true) (hget : s.nodes[i]? = some nd) :
    metaOKb (s.setNode i { nd with childFileInfo := nd.childFileInfo ++ [parsed] }) = true ∧
    wfB (s.setNode i { nd with childFileInfo := nd.childFileInfo ++ [parsed] }) = true ∧
    (s.setNode i { nd with childFileInfo := nd.childFileInfo ++ [parsed] }).nodes[i]?
      = some { nd with childFileInfo := nd.childFileInfo ++ [parsed] } := by
  have hlt : i < s.nodes.length := (List.getElem?_eq_some.mp hget).1
  have hOKp := (metaOKb_iff s).mp hOK
  have hwfp := (wfB_iff s).mp hwf
  have hlen : (s.setNode i { nd with childFileInfo := nd.childFileInfo ++ [parsed] }).nodes.length
      = s.nodes.length := by
    simp [Sys.setNode]
  have hlook : ∀ j : Nat,
      ((s.setNode i { nd with childFileInfo := nd.childFileInfo ++ [parsed] }).nodes[j]?).map
        (fun b => b.info.id) = (s.nodes[j]?).map (fun b => b.info.id) := by
    intro j
    by_cases hji : i = j
    · subst hji
      simp only [Sys.setNode]
      rw [List.getElem?_set_eq_of_lt _ hlt, hget]
      rfl
    · simp only [Sys.setNode]
      rw [List.getElem?_set_ne hji]
  have hbid : ∀ nd0 : Node,
      branchIds (s.setNode i { nd with childFileInfo := nd.childFileInfo ++ [parsed] }) nd0
        = branchIds s nd0 := by
    intro nd0
    unfold branchIds
    apply List.filterMap_congr
    intro j hj
    exact hlook j
  refine ⟨?_, ?_, ?_⟩
  · rw [metaOKb_iff]
    intro nd0 hmem b hb
    rw [hbid nd0] at hb
    rcases List.mem_or_eq_of_mem_set hmem with hmem0 | hrfl
    · exact hOKp nd0 hmem0 b hb
    · subst hrfl
      have hb2 : b ∈ metaIds nd := by
        have : branchIds s { nd with childFileInfo := nd.childFileInfo ++ [parsed] }
            = branchIds s nd := rfl
        rw [this] at hb
        exact hOKp nd (List.getElem?_mem hget) b hb
      simp only [metaIds] at hb2 ⊢
      rcases List.mem_append.mp hb2 with h | h
      · exact List.mem_append.mpr (Or.inl h)
      · exact List.mem_append.mpr (Or.inr (by
          simp only [List.map_append]
          exact List.mem_append.mpr (Or.inl h)))
  · rw [wfB_iff]
    intro nd0 hmem j hj
    rw [hlen]
    rcases List.mem_or_eq_of_mem_set hmem with hmem0 | hrfl
    · exact hwfp nd0 hmem0 j hj
    · subst hrfl
      exact hwfp nd (List.getElem?_mem hget) j hj
  · simp only [Sys.setNode]
    exact List.getElem?_set_eq_of_lt _ hlt

/-- Appending a branchless fresh node and recording it as a branch of a
node whose metadata already lists its id preserves the metadata
invariant. -/
theorem metaOK_branchStep (s2 : Sys) (i k : Nat) (nd2 fresh : Node)
    (hOK : metaOKb s2 = true) (hwf : wfB s2 = true)
    (hget : s2.nodes[i]? = some nd2)
    (hfb : fresh.branches = [])
    (hfi : fresh.info.id ∈ metaIds nd2)
    (hk : k = s2.nodes.length) :
    metaOKb (({ s2 with nodes := s2.nodes ++ [fresh] } : Sys).setNode i
      { nd2 with branches := nd2.branches ++ [k] }) = true := by
  subst hk
  have hlt : i < s2.nodes.length := (List.getElem?_eq_some.mp hget).1
  have hOKp := (metaOKb_iff s2).mp hOK
  have hwfp := (wfB_iff s2).mp hwf
  set s3 := ({ s2 with nodes := s2.nodes ++ [fresh] } : Sys).setNode i
      { nd2 with branches := nd2.branches ++ [s2.nodes.length] } with hs3
  have hlook : ∀ j : Nat, j < s2.nodes.length →
      (s3.nodes[j]?).map (fun b => b.info.id) = (s2.nodes[j]?).map (fun b => b.info.id) := by
    intro j hjlt
    by_cases hji : i = j
    · subst hji
      have hlt2 : i < (s2.nodes ++ [fresh]).length := by
        rw [List.length_append]
        exact Nat.lt_of_lt_of_le hlt (Nat.le_add_right _ _)
      simp only [hs3, Sys.setNode]
      rw [List.getElem?_set_eq_of_lt _ hlt2, hget]
      rfl
    · simp only [hs3, Sys.setNode]
      rw [List.getElem?_set_ne hji, List.getElem?_append_left hjlt]
  have hlookNew : (s3.nodes[s2.nodes.length]?).map (fun b => b.info.id)
      = some fresh.info.id := by
    have hne : i ≠ s2.nodes.length := Nat.ne_of_lt hlt
    simp only [hs3, Sys.setNode]
    rw [List.getElem?_set_ne hne, List.getElem?_concat_length]
    rfl
  rw [metaOKb_iff]
  intro nd0 hmem b hb
  obtain ⟨j, hjmem, hjid⟩ := List.mem_filterMap.mp hb
  rcases List.mem_or_eq_of_mem_set hmem with hmem0 | hrfl
  · rcases List.mem_append.mp hmem0 with hold | hnew
    · -- an untouched node of the old heap
      have hjlt : j < s2.nodes.length := hwfp nd0 hold j hjmem
      have hb2 : b ∈ branchIds s2 nd0 := by
        apply List.mem_filterMap.mpr
        exact ⟨j, hjmem, by rw [← hlook j hjlt]; exact hjid⟩
      exact hOKp nd0 hold b hb2
    · -- the fresh node has no branches
      have : nd0 = fresh := by
        cases hnew with
        | head => rfl
        | tail _ hx => cases hx
      subst this
      rw [hfb] at hjmem
      cases hjmem
  · -- the updated node at index i
    subst hrfl
    simp only at hjmem
    rcases List.mem_append.mp hjmem with hold | hnewb
    · have hjlt : j < s2.nodes.length := hwfp nd2 (List.getElem?_mem hget) j hold
      have hb2 : b ∈ branchIds s2 nd2 := by
        apply List.mem_filterMap.mpr
        exact ⟨j, hold, by rw [← hlook j hjlt]; exact hjid⟩
      exact hOKp nd2 (List.getElem?_mem hget) b hb2
    · have : j = s2.nodes.length := by
        cases hnewb with
        | head => rfl
        | tail _ hx => cases hx
      subst this
      rw [hlookNew] at hjid
      cases hjid
      exact hfi

/-- Adding a FILE branch through addBranch preserves the metadata invariant
whenever the pushed id is already recorded in the metadata of the parent:
on a FILE parent the throw leaves the state alone, otherwise the new tree
is branchless and carries the recorded id. -/
theorem metaOK_addFileBranch (r : Remote) (i : Nat) (s2 : Sys) (ndMid : Node) (parsed : Info)
    (hOK : metaOKb s2 = true) (hwf : wfB s2 = true)
    (hget : s2.nodes[i]? = some ndMid)
    (hfi : parsed.id ∈ metaIds ndMid) :
    metaOKb ((addBranch r i "FILE" parsed s2).2) = true := by
  have hlt : i < s2.nodes.length := (List.getElem?_eq_some.mp hget).1
  by_cases hft : ndMid.type = "FILE"
  · have hx : (ndMid.type != "FILE") = false := by rw [hft]; rfl
    have hy : (ndMid.type == "FILE") = true := by rw [hft]; rfl
    simp only [addBranch, hget, hx, Bool.false_and, hy]
    simpa using hOK
  · have hx : (ndMid.type != "FILE") = true := bne_iff_ne.mpr hft
    have hcond : (ndMid.type != "FILE"
        && ((jsToUpper "FILE") == "FOLDER" || (jsToUpper "FILE") == "FILE")) = true := by
      rw [hx]; rfl
    have hmk : mkTree r (jsToUpper "FILE") parsed (some i) s2
        = (s2.nodes.length,
           { s2 with nodes := s2.nodes ++
             [{ type := jsToUpper "FILE", info := parsed, parent := some i, branches := [],
                childFolderInfo := [], childFileInfo := [],
                ready := !((jsToUpper "FILE") == "FOLDER") }] }) := rfl
    have hnd1 : ({ s2 with nodes := s2.nodes ++
          [{ type := jsToUpper "FILE", info := parsed, parent := some i, branches := [],
             childFolderInfo := [], childFileInfo := [],
             ready := !((jsToUpper "FILE") == "FOLDER") }] } : Sys).nodes[i]?
        = some ndMid := by
      show (s2.nodes ++ _)[i]? = some ndMid
      rw [List.getElem?_append_left hlt]
      exact hget
    simp only [addBranch, hget, hcond, if_true, hmk, hnd1]
    exact metaOK_branchStep s2 i s2.nodes.length ndMid _ hOK hwf hget rfl hfi rfl

/-- C5 amended: searchAndInit and createFile preserve the metadata
invariant on every heap with in-range branch pointers, because both push
the metadata record of the child before handing it to addBranch; the
invariant is instead broken by createFolder, which bypasses addBranch and
records no metadata for the branch it pushes, as the counterexample shows,
and addBranch itself performs no metadata check. -/
theorem metaInv_searchAndInit_createFile (r : Remote) (s : Sys) (i : Nat)
    (fid nm mime : String) (h1 : metaOKb s = true) (h2 : wfB s = true) :
    metaOKb ((searchAndInit r i fid s).2) = true ∧
    metaOKb ((createFile r i nm mime s).2) = true := by
  constructor
  · cases hget : s.nodes[i]? with
    | none => simp only [searchAndInit, hget]; exact h1
    | some nd =>
      cases hfg : filesGet r fid with
      | none => simp only [searchAndInit, hget, hfg]; exact h1
      | some gf =>
        by_cases hpc : ((parseFileInfo gf).parent == some nd.info.id) = true
        · have hmid := metaOK_pushMeta (s.addCalls 1) i nd (parseFileInfo gf) h1 h2 hget
          have key : metaOKb ((addBranch r i "FILE" (parseFileInfo gf)
              (((s.addCalls 1).setNode i
                { nd with childFileInfo := nd.childFileInfo ++ [parseFileInfo gf] }).addCalls
                (genFileCalls (parseFileInfo gf)))).2) = true :=
            metaOK_addFileBranch r i
              (((s.addCalls 1).setNode i
                { nd with childFileInfo := nd.childFileInfo ++ [parseFileInfo gf] }).addCalls
                (genFileCalls (parseFileInfo gf)))
              { nd with childFileInfo := nd.childFileInfo ++ [parseFileInfo gf] }
              (parseFileInfo gf) hmid.1 hmid.2.1 hmid.2.2 (by simp [metaIds])
          simp only [searchAndInit, hget, hfg, hpc, if_true]
          rcases haB : addBranch r i "FILE" (parseFileInfo gf)
              (((s.addCalls 1).setNode i
                { nd with childFileInfo := nd.childFileInfo ++ [parseFileInfo gf] }).addCalls
                (genFileCalls (parseFileInfo gf))) with ⟨o, s3⟩
          rw [haB] at key
          cases o <;> exact key
        · have hpc2 : ((parseFileInfo gf).parent == some nd.info.id) = false :=
            Bool.not_eq_true _ ▸ hpc
          simp only [searchAndInit, hget, hfg, hpc2]
          simpa using h1
  · cases hget : s.nodes[i]? with
    | none => simp only [createFile, hget]; exact h1
    | some nd =>
      have hmid := metaOK_pushMeta (s.addCalls 1) i nd
        (parseFileInfo (filesCreate r nm mime nd.info.id)) h1 h2 hget
      simp only [createFile, hget]
      exact metaOK_addFileBranch r i
        (((s.addCalls 1).setNode i
          { nd with childFileInfo := nd.childFileInfo ++
              [parseFileInfo (filesCreate r nm mime nd.info.id)] }).addCalls
          (genFileCalls (parseFileInfo (filesCreate r nm mime nd.info.id))))
        { nd with childFileInfo := nd.childFileInfo ++
            [parseFileInfo (filesCreate r nm mime nd.info.id)] }
        (parseFileInfo (filesCreate r nm mime nd.info.id))
        hmid.1 hmid.2.1 hmid.2.2 (by simp [metaIds])

/-- C5 amended witness: preservation applied to the Ready folder fixture,
creating a document and searching a missing id. -/
theorem metaInv_searchAndInit_createFile_witness :
    (metaOKb c5Sys = true ∧ wfB c5Sys = true) ∧
    (metaOKb ((searchAndInit c5Remote 0 "nope" c5Sys).2) = true ∧
     metaOKb ((createFile c5Remote 0 "NewDoc" docMime c5Sys).2) = true) :=
  ⟨⟨by decide, by decide⟩,
   metaInv_searchAndInit_createFile c5Remote c5Sys 0 "nope" "NewDoc" docMime
     (by decide) (by decide)⟩

/-- C1: over any remote tree root, A, B, leafX with distinct ids, the root
registered as the known drive, searching leafX with path initialization on
misses the cache, chooses the leafX record, walks the ancestor chain and
materializes exactly the nodes A, B and leafX in that order on top of the
lone root node, returning the leafX tree, whose parent chain runs through B
and A back to the root. -/
theorem search_leafX_path (rid aid bid xid : String)
    (d1 : rid ≠ aid) (d2 : rid ≠ bid) (d3 : rid ≠ xid)
    (d4 : aid ≠ bid) (d5 : aid ≠ xid) (d6 : bid ≠ xid)
    (d7 : rid ≠ "leafX") (d8 : aid ≠ "leafX") :
    (c1Start rid aid bid xid).sys.nodes.map (fun nd => nd.info.id) = [rid] ∧
    (search (c1Remote rid aid bid xid) "leafX" true true false 0
      (c1Start rid aid bid xid)).1 = SearchRes.tree 3 ∧
    ((search (c1Remote rid aid bid xid) "leafX" true true false 0
      (c1Start rid aid bid xid)).2).sys.nodes.map (fun nd => (nd.info.id, nd.type, nd.parent))
      = [(rid, "FOLDER", none), (aid, "FOLDER", some 0), (bid, "FOLDER", some 1),
         (xid, "FILE", some 2)] ∧
    parentChain ((search (c1Remote rid aid bid xid) "leafX" true true false 0
      (c1Start rid aid bid xid)).2).sys 8 3 = [3, 2, 1, 0] := by
  have b1 : (rid == aid) = false := beq_eq_false_iff_ne.mpr d1
  have b2 : (aid == rid) = false := beq_eq_false_iff_ne.mpr d1.symm
  have b3 : (rid == bid) = false := beq_eq_false_iff_ne.mpr d2
  have b4 : (bid == rid) = false := beq_eq_false_iff_ne.mpr d2.symm
  have b5 : (rid == xid) = false := beq_eq_false_iff_ne.mpr d3
  have b6 : (xid == rid) = false := beq_eq_false_iff_ne.mpr d3.symm
  have b7 : (aid == bid) = false := beq_eq_false_iff_ne.mpr d4
  have b8 : (bid == aid) = false := beq_eq_false_iff_ne.mpr d4.symm
  have b9 : (aid == xid) = false := beq_eq_false_iff_ne.mpr d5
  have b10 : (xid == aid) = false := beq_eq_false_iff_ne.mpr d5.symm
  have b11 : (bid == xid) = false := beq_eq_false_iff_ne.mpr d6
  have b12 : (xid == bid) = false := beq_eq_false_iff_ne.mpr d6.symm
  have b13 : (rid == "leafX") = false := beq_eq_false_iff_ne.mpr d7
  have b14 : (aid == "leafX") = false := beq_eq_false_iff_ne.mpr d8
  have sA : strIncludes "A" "leafX" = false := by decide
  have sB : strIncludes "B" "leafX" = false := by decide
  have sX : strIncludes "leafX" "leafX" = true := by decide
  have sR : strIncludes "root" "leafX" = false := by decide
  have sFm : strIncludes "application/vnd.google-apps.folder" "folder" = true := by decide
  have sDm : strIncludes "application/vnd.google-apps.document" "folder" = false := by decide
  have sDs : strIncludes "application/vnd.google-apps.document" "spreadsheet" = false := by
    decide
  have hup : jsToUpper "FOLDER" = "FOLDER" := by decide
  simp [search, c1Remote, c1Start, mkTree, mkTreeSync, mkInfo, mkG, init, listChildren,
    splitItems, parseFolderInfo, parseFileInfo, searchCacheScan, treeGet, topParent,
    getNested, getLocal, infoMatch, typeOk, truthy, chosenFile, searchQuery, walkUp,
    filesGet, getDrive, scanDrives, retrieveInfo, walkDownRev, initFolder, branchIds,
    addBranch, mimeIsFolder, searchAndInit, genFileCalls, genFileIsSheet, Sys.addCalls,
    Sys.setNode, folderMime, docMime, jsToUpper, mkNode,
    b1, b2, b3, b4, b5, b6, b7, b8, b9, b10, b11, b12, b13, b14,
    d1, d2, d3, d4, d5, d6, d7, d8, Ne.symm d1, Ne.symm d2, Ne.symm d3, Ne.symm d4,
    Ne.symm d5, Ne.symm d6,
    sA, sB, sX, sR, sFm, sDm, sDs, parentChain]

/-- C1 witness: the path reconstruction theorem at four concrete distinct
ids. -/
theorem search_leafX_path_witness :
    (("r0" : String) ≠ "a0" ∧ ("r0" : String) ≠ "b0" ∧ ("r0" : String) ≠ "x0" ∧
     ("a0" : String) ≠ "b0" ∧ ("a0" : String) ≠ "x0" ∧ ("b0" : String) ≠ "x0" ∧
     ("r0" : String) ≠ "leafX" ∧ ("a0" : String) ≠ "leafX") ∧
    ((c1Start "r0" "a0" "b0" "x0").sys.nodes.map (fun nd => nd.info.id) = ["r0"] ∧
    (search (c1Remote "r0" "a0" "b0" "x0") "leafX" true true false 0
      (c1Start "r0" "a0" "b0" "x0")).1 = SearchRes.tree 3 ∧
    ((search (c1Remote "r0" "a0" "b0" "x0") "leafX" true true false 0
      (c1Start "r0" "a0" "b0" "x0")).2).sys.nodes.map
        (fun nd => (nd.info.id, nd.type, nd.parent))
      = [("r0", "FOLDER", none), ("a0", "FOLDER", some 0), ("b0", "FOLDER", some 1),
         ("x0", "FILE", some 2)] ∧
    parentChain ((search (c1Remote "r0" "a0" "b0" "x0") "leafX" true true false 0
      (c1Start "r0" "a0" "b0" "x0")).2).sys 8 3 = [3, 2, 1, 0]) :=
  ⟨⟨by decide, by decide, by decide, by decide, by decide, by decide, by decide, by decide⟩,
   search_leafX_path "r0" "a0" "b0" "x0" (by decide) (by decide) (by decide) (by decide)
     (by decide) (by decide) (by decide) (by decide)⟩
